import Mathlib

/-!
Verification development for the moore SystemVerilog front-end.

The definitions below shallowly embed the preprocessor of
`src/svlog/preproc.rs` (token categories, spans, the stream stack, the
macro table, the define-conditional stack, directive handling and the
iterator loop) and the instance elaboration of
`src/svlog/inst_details.rs`.  Possibly diverging loops take an explicit
fuel argument; running out of fuel is a distinguished outcome that no
theorem below identifies with normal termination.
-/

namespace Moore

/-- Category token kinds, as produced by the category lexer (`svlog::cat`)
and consumed by the preprocessor. -/
inductive CatTokenKind where
  | Text
  | Comment
  | Whitespace
  | Newline
  | Symbol (c : Char)
  deriving DecidableEq, Repr

/-- A byte range within a source (`source::Span`): source id plus half-open
offset range. -/
structure Span where
  src : Nat
  b : Nat
  e : Nat
  deriving DecidableEq, Repr

/-- `type TokenAndSpan = (CatTokenKind, Span)` from preproc.rs. -/
abbrev TokenAndSpan := CatTokenKind × Span

/-- `Span::union`: smallest span covering both. -/
def Span.union (a b : Span) : Span :=
  ⟨a.src, min a.b b.b, max a.e b.e⟩

/-- A diagnostic (`DiagBuilder2`): severity, message, optional span. -/
structure Diag where
  severity : String
  msg : String
  span : Option Span
  deriving DecidableEq, Repr

/-- `DiagBuilder2::fatal(msg).span(sp)`. -/
def fatal (msg : String) (sp : Span) : Diag :=
  ⟨"fatal", msg, some sp⟩

/-- The define conditional stack entries (`enum Defcond`). -/
inductive Defcond where
  | Done
  | Enabled
  | Disabled
  deriving DecidableEq, Repr

/-- A macro argument declaration (`struct MacroArg`). -/
structure MacroArg where
  name : String
  span : Span
  deriving DecidableEq, Repr

/-- A stored text macro (`struct Macro`). -/
structure Macro where
  name : String
  span : Span
  args : List MacroArg
  body : List TokenAndSpan
  deriving DecidableEq, Repr

/-- String-keyed map (models the `HashMap`s of preproc.rs); insertion
overwrites any previous binding of the key. -/
def amInsert {α : Type} (m : List (String × α)) (k : String) (v : α) :
    List (String × α) :=
  (k, v) :: m.filter (fun p => !(p.1 == k))

/-- Lookup in the string-keyed map. -/
def amGet {α : Type} (m : List (String × α)) (k : String) : Option α :=
  (m.find? (fun p => p.1 == k)).map Prod.snd

/-- `HashMap::contains_key`. -/
def amContains {α : Type} (m : List (String × α)) (k : String) : Bool :=
  (amGet m k).isSome

/-- The compiler directives recognized by the preprocessor
(`enum Directive`). -/
inductive Directive where
  | Include
  | Define
  | Undef
  | Undefineall
  | Ifdef
  | Ifndef
  | Else
  | Elsif
  | Endif
  | Unknown
  deriving DecidableEq, Repr

/-- `DIRECTIVES_TABLE`: maps a directive name to its `Directive`; names not
in the table map to `Unknown`. -/
def directivesTable (s : String) : Directive :=
  if s = "include" then Directive.Include
  else if s = "define" then Directive.Define
  else if s = "undef" then Directive.Undef
  else if s = "undefineall" then Directive.Undefineall
  else if s = "ifdef" then Directive.Ifdef
  else if s = "ifndef" then Directive.Ifndef
  else if s = "else" then Directive.Else
  else if s = "elsif" then Directive.Elsif
  else if s = "endif" then Directive.Endif
  else Directive.Unknown

/-- The backtick character that introduces a compiler directive. -/
def backtickChar : Char := Char.ofNat 96

/-- The external collaborators of the preprocessor: source contents (for
`Span::extract`), source paths (`Source::get_path`), the source manager's
`open`, the category lexer for a newly opened source, and the configured
include search paths. -/
structure Env where
  contents : Nat → String
  srcPath : Nat → String
  fsOpen : String → Option Nat
  lex : Nat → List TokenAndSpan
  includePaths : List String

/-- `Span::extract`: the text of the span within its source. -/
def extractSp (env : Env) (sp : Span) : String :=
  String.mk (((env.contents sp.src).toList.drop sp.b).take (sp.e - sp.b))

/-- The preprocessor state (`struct Preprocessor`): the stack of input
streams (source id and remaining tokens), the macro table, the
macro-expansion injection stack, the define conditional stack, and the
current lookahead token. -/
structure PP where
  stack : List (Nat × List TokenAndSpan)
  macroDefs : List (String × Macro)
  macroStack : List TokenAndSpan
  defcondStack : List Defcond
  token : Option TokenAndSpan
  deriving DecidableEq, Repr

/-- The stream-stack part of `Preprocessor::bump`: pop exhausted streams
until one yields a token or the stack empties. -/
def bumpStream : List (Nat × List TokenAndSpan) →
    Option TokenAndSpan × List (Nat × List TokenAndSpan)
  | [] => (none, [])
  | (_, []) :: rest => bumpStream rest
  | (src, t :: ts) :: rest => (some t, (src, ts) :: rest)

/-- `Preprocessor::bump`: take the next token from the macro injection
stack if non-empty, else from the topmost stream. -/
def bump (pp : PP) : PP :=
  match pp.macroStack with
  | t :: rest => { pp with token := some t, macroStack := rest }
  | [] =>
    let r := bumpStream pp.stack
    { pp with token := r.1, stack := r.2 }

/-- `Preprocessor::is_inactive`: whether the top of the define conditional
stack disables the current region. -/
def isInactive (pp : PP) : Bool :=
  match pp.defcondStack with
  | [] => false
  | Defcond.Enabled :: _ => false
  | _ => true

/-- Skip a single optional whitespace token (the
`match self.token { Some((Whitespace, _)) => self.bump(), _ => () }`
idiom of preproc.rs). -/
def skipWs (pp : PP) : PP :=
  match pp.token with
  | some (CatTokenKind.Whitespace, _) => bump pp
  | _ => pp

/-- Result of directive handling: success with the updated state, a fatal
diagnostic, a Rust `panic!`, or fuel exhaustion of the embedding. -/
inductive PRes (α : Type) where
  | ok (a : α)
  | err (d : Diag)
  | panicked (msg : String)
  | fuelOut
  deriving DecidableEq, Repr

/-- The filename accumulation loop of the `Include` branch: concatenate
the extracted text of every token until the closing delimiter; a newline
or end of input before it is fatal.  Returns the filename, the begin
offset of the closing delimiter, and the state (the closing delimiter is
still the current token). -/
def includeFilenameLoop (env : Env) (dirSpan : Span) (closing : Char) :
    Nat → PP → String → PRes (String × Nat × PP)
  | 0, _, _ => PRes.fuelOut
  | fuel + 1, pp, acc =>
    match pp.token with
    | some (CatTokenKind.Symbol c, sp) =>
      if c = closing then PRes.ok (acc, sp.b, pp)
      else includeFilenameLoop env dirSpan closing fuel (bump pp)
        (acc ++ extractSp env sp)
    | some (CatTokenKind.Newline, sp) =>
      PRes.err (fatal "Expected end of included file's name before line break" sp)
    | some (_, sp) =>
      includeFilenameLoop env dirSpan closing fuel (bump pp)
        (acc ++ extractSp env sp)
    | none =>
      PRes.err (fatal
        "Expected filename after `include directive before the end of the input"
        dirSpan)

/-- `Path::parent` as used by `open_include`: the path up to the last
slash, or the empty path when there is no slash. -/
def parentDir (p : String) : String :=
  match (p.toList.reverse.dropWhile (fun c => !(c == '/'))) with
  | [] => ""
  | _ :: rest => String.mk rest.reverse

/-- `PathBuf::push`: join a directory prefix and a file name. -/
def joinPath (pre file : String) : String :=
  if pre = "" then file else pre ++ "/" ++ file

/-- The search loop of `open_include`: try each prefix in order and return
the first source that the source manager opens. -/
def openIncludeGo (env : Env) (filename : String) : List String → Option Nat
  | [] => none
  | p :: rest =>
    match env.fsOpen (joinPath p filename) with
    | some src => some src
    | none => openIncludeGo env filename rest

/-- `Preprocessor::open_include`: search the directory of the current file
first, then each configured include path in order. -/
def openInclude (env : Env) (filename currentFile : String) : Option Nat :=
  openIncludeGo env filename (parentDir currentFile :: env.includePaths)

/-- The macro-argument declaration loop of the `Define` branch. -/
def defineArgsLoop (env : Env) (dirSpan : Span) :
    Nat → PP → List MacroArg → PRes (List MacroArg × PP)
  | 0, _, _ => PRes.fuelOut
  | fuel + 1, pp0, acc =>
    match pp0.token with
    | some (CatTokenKind.Symbol ')', _) => PRes.ok (acc, pp0)
    | _ =>
      let pp := skipWs pp0
      match pp.token with
      | some (CatTokenKind.Text, sp) =>
        let pp := bump pp
        let acc := acc ++ [MacroArg.mk (extractSp env sp) sp]
        let pp := skipWs pp
        match pp.token with
        | some (CatTokenKind.Symbol c, sp2) =>
          if c = ',' then defineArgsLoop env dirSpan fuel (bump pp) acc
          else if c = ')' then PRes.ok (acc, pp)
          else PRes.err (fatal "Expected , or ) after macro argument name" sp2)
        | some (_, sp2) =>
          PRes.err (fatal "Expected , or ) after macro argument name" sp2)
        | none =>
          PRes.err (fatal
            "Expected closing parenthesis at the end of the macro definition"
            dirSpan)
      | _ => PRes.err (fatal "Expected macro argument" dirSpan)

/-- The macro-body consumption loop of the `Define` branch: collect tokens
until an unescaped newline; a backslash is dropped, and a backslash
immediately followed by a newline drops both. -/
def defineBodyLoop : Nat → PP → List TokenAndSpan →
    PRes (List TokenAndSpan × PP)
  | 0, _, _ => PRes.fuelOut
  | fuel + 1, pp, acc =>
    match pp.token with
    | some (CatTokenKind.Newline, _) => PRes.ok (acc, pp)
    | some (CatTokenKind.Symbol c, sp) =>
      if c = '\\' then
        let pp := bump pp
        match pp.token with
        | some (CatTokenKind.Newline, _) => defineBodyLoop fuel (bump pp) acc
        | _ => defineBodyLoop fuel pp acc
      else defineBodyLoop fuel (bump pp) (acc ++ [(CatTokenKind.Symbol c, sp)])
    | some x => defineBodyLoop fuel (bump pp) (acc ++ [x])
    | none => PRes.ok (acc, pp)

/-- The per-argument token collection loop of macro invocation: captures
tokens until a comma (at nesting level 0, continue with next argument) or
a closing parenthesis (at nesting level 0, finish).  Parentheses maintain
the nesting counter and are consumed without being captured.  The returned
flag is true when the closing parenthesis ended the whole list. -/
def macroParamInner (dirSpan : Span) : Nat → PP → Nat → List TokenAndSpan →
    PRes ((List TokenAndSpan × Bool) × PP)
  | 0, _, _, _ => PRes.fuelOut
  | fuel + 1, pp, nesting, acc =>
    match pp.token with
    | some (CatTokenKind.Symbol c, sp) =>
      if c = ',' ∧ nesting = 0 then PRes.ok ((acc, false), bump pp)
      else if c = ')' ∧ nesting = 0 then PRes.ok ((acc, true), pp)
      else if c = '(' then macroParamInner dirSpan fuel (bump pp) (nesting + 1) acc
      else if c = ')' then macroParamInner dirSpan fuel (bump pp) (nesting - 1) acc
      else macroParamInner dirSpan fuel (bump pp) nesting
        (acc ++ [(CatTokenKind.Symbol c, sp)])
    | some x => macroParamInner dirSpan fuel (bump pp) nesting (acc ++ [x])
    | none =>
      PRes.err (fatal "Expected closing parenthesis after macro parameters" dirSpan)

/-- The outer macro-argument collection loop: one formal per captured
token sequence; running out of formals is the fatal (span-less)
"Superfluous macro parameters" diagnostic. -/
def macroParamsOuter (dirSpan : Span) : Nat → List MacroArg → PP →
    List (String × List TokenAndSpan) →
    PRes (List (String × List TokenAndSpan) × PP)
  | 0, _, _, _ => PRes.fuelOut
  | fuel + 1, args, pp, params =>
    match args with
    | [] => PRes.err (Diag.mk "fatal" "Superfluous macro parameters" none)
    | arg :: argsRest =>
      match macroParamInner dirSpan fuel pp 0 [] with
      | PRes.ok ((toks, isClose), pp) =>
        let params := amInsert params arg.name toks
        if isClose then PRes.ok (params, pp)
        else macroParamsOuter dirSpan fuel argsRest pp params
      | PRes.err d => PRes.err d
      | PRes.panicked m => PRes.panicked m
      | PRes.fuelOut => PRes.fuelOut

/-- Replacement of formal names inside a macro body: a `Text` token whose
extracted text matches a captured formal is replaced by the captured token
sequence; everything else is kept. -/
def macroSubst (env : Env) (params : List (String × List TokenAndSpan)) :
    List TokenAndSpan → List TokenAndSpan
  | [] => []
  | (CatTokenKind.Text, sp) :: rest =>
    (match amGet params (extractSp env sp) with
     | some sub => sub
     | none => [(CatTokenKind.Text, sp)]) ++ macroSubst env params rest
  | x :: rest => x :: macroSubst env params rest

/-- Push a macro body (with parameters substituted when any were
captured) onto the injection stack, to be played back before further
stream tokens. -/
def applyMacro (env : Env) (pp : PP) (makro : Macro)
    (params : List (String × List TokenAndSpan)) : PP :=
  if params.isEmpty then
    { pp with macroStack := makro.body ++ pp.macroStack }
  else
    { pp with macroStack := macroSubst env params makro.body ++ pp.macroStack }

/-- The `ifdef`/`ifndef`/`elsif` arm of `handle_directive`: skip leading
whitespace, read the macro name, and update the define conditional stack
according to the directive and whether the name is defined.  Note that
this arm runs regardless of whether the region is currently inactive. -/
def condDirective (env : Env) (dir : Directive) (span : Span) (pp : PP) : PRes PP :=
  let pp := skipWs (bump pp)
  match pp.token with
  | some (CatTokenKind.Text, sp) =>
    let isDef := amContains pp.macroDefs (extractSp env sp)
    match dir with
    | Directive.Ifdef =>
      PRes.ok { pp with defcondStack :=
        (if isDef then Defcond.Enabled else Defcond.Disabled) :: pp.defcondStack }
    | Directive.Ifndef =>
      PRes.ok { pp with defcondStack :=
        (if isDef then Defcond.Disabled else Defcond.Enabled) :: pp.defcondStack }
    | Directive.Elsif =>
      match pp.defcondStack with
      | Defcond.Done :: rest =>
        PRes.ok { pp with defcondStack := Defcond.Done :: rest }
      | Defcond.Enabled :: rest =>
        PRes.ok { pp with defcondStack := Defcond.Done :: rest }
      | Defcond.Disabled :: rest =>
        PRes.ok { pp with defcondStack :=
          (if isDef then Defcond.Enabled else Defcond.Disabled) :: rest }
      | [] =>
        PRes.err (fatal
          "Found `elsif without any preceeding `ifdef, `ifndef, or `elsif directive"
          span)
    | _ => PRes.panicked "unreachable"
  | _ => PRes.err (fatal "Expected macro name after `ifdef" span)

/-- The tail of the `Define` arm after the argument list: skip whitespace,
consume the body, and store the macro (overwriting a prior definition). -/
def defineFinish (fuel : Nat) (name : String) (nameSp : Span)
    (args : List MacroArg) (pp : PP) : PRes PP :=
  let pp := skipWs pp
  match defineBodyLoop fuel pp [] with
  | PRes.ok (body, pp) =>
    let defs := amInsert pp.macroDefs name (Macro.mk name nameSp args body)
    PRes.ok { pp with macroDefs := defs }
  | PRes.err d => PRes.err d
  | PRes.panicked m => PRes.panicked m
  | PRes.fuelOut => PRes.fuelOut

/-- The tail of the `Include` arm after the opening delimiter: accumulate
the filename, resolve it via `open_include` relative to the source that
contains the directive, and push the included stream; failure to open is
fatal. -/
def includeRest (env : Env) (fuel : Nat) (dirSpan : Span) (spq : Span)
    (closing : Char) (pp : PP) : PRes PP :=
  let nameP := spq.e
  let pp := bump pp
  match includeFilenameLoop env dirSpan closing fuel pp "" with
  | PRes.ok (filename, nameQ, pp) =>
    match openInclude env filename (env.srcPath dirSpan.src) with
    | some src => PRes.ok { pp with stack := (src, env.lex src) :: pp.stack }
    | none =>
      PRes.err (fatal ("Cannot open included file \"" ++ filename ++ "\"")
        (Span.mk spq.src nameP nameQ))
  | PRes.err d => PRes.err d
  | PRes.panicked m => PRes.panicked m
  | PRes.fuelOut => PRes.fuelOut

/-- `Preprocessor::handle_directive`.  `dirName` is the extracted text
after the backtick and `span` the span of the whole directive. -/
def handleDirective (env : Env) (fuel : Nat) (dirName : String) (span : Span)
    (pp : PP) : PRes PP :=
  match directivesTable dirName with
  | Directive.Include =>
    if isInactive pp then PRes.ok pp
    else
      let pp := skipWs (bump pp)
      match pp.token with
      | some (CatTokenKind.Symbol c, spq) =>
        if c = '\"' then includeRest env fuel span spq '\"' pp
        else if c = '<' then includeRest env fuel span spq '>' pp
        else PRes.err (fatal
          "Expected filename inside double quotes (\"...\") or angular brackets (<...>) after `include"
          span)
      | _ => PRes.err (fatal
          "Expected filename inside double quotes (\"...\") or angular brackets (<...>) after `include"
          span)
  | Directive.Define =>
    if isInactive pp then PRes.ok pp
    else
      let pp := skipWs (bump pp)
      match pp.token with
      | some (CatTokenKind.Text, nameSp) =>
        let name := extractSp env nameSp
        let pp := bump pp
        match pp.token with
        | some (CatTokenKind.Symbol '(', _) =>
          match defineArgsLoop env span fuel (bump pp) [] with
          | PRes.ok (args, pp) => defineFinish fuel name nameSp args (bump pp)
          | PRes.err d => PRes.err d
          | PRes.panicked m => PRes.panicked m
          | PRes.fuelOut => PRes.fuelOut
        | _ => defineFinish fuel name nameSp [] pp
      | _ => PRes.err (fatal "Expected macro name after `define" span)
  | Directive.Ifdef => condDirective env Directive.Ifdef span pp
  | Directive.Ifndef => condDirective env Directive.Ifndef span pp
  | Directive.Elsif => condDirective env Directive.Elsif span pp
  | Directive.Else =>
    match pp.defcondStack with
    | Defcond.Disabled :: rest =>
      PRes.ok { pp with defcondStack := Defcond.Enabled :: rest }
    | Defcond.Enabled :: rest =>
      PRes.ok { pp with defcondStack := Defcond.Done :: rest }
    | Defcond.Done :: rest =>
      PRes.ok { pp with defcondStack := Defcond.Done :: rest }
    | [] =>
      PRes.err (fatal
        "Found `else without any preceeding `ifdef, `ifndef, or `elsif directive"
        span)
  | Directive.Endif =>
    match pp.defcondStack with
    | _ :: rest => PRes.ok { pp with defcondStack := rest }
    | [] =>
      PRes.err (fatal
        "Found `endif without any preceeding `ifdef, `ifndef, `else, or `elsif directive"
        span)
  | Directive.Unknown =>
    if isInactive pp then PRes.ok pp
    else
      match amGet pp.macroDefs dirName with
      | some makro =>
        if makro.args.isEmpty then PRes.ok (applyMacro env pp makro [])
        else
          let pp := skipWs (bump pp)
          match pp.token with
          | some (CatTokenKind.Symbol '(', _) =>
            match macroParamsOuter span fuel makro.args (bump pp) [] with
            | PRes.ok (params, pp) => PRes.ok (applyMacro env pp makro params)
            | PRes.err d => PRes.err d
            | PRes.panicked m => PRes.panicked m
            | PRes.fuelOut => PRes.fuelOut
          | _ => PRes.err (fatal "Expected macro parameters in parentheses '(...)'" span)
      | none =>
        PRes.err (fatal ("Unknown compiler directive '`" ++ dirName ++ "'") span)
  | Directive.Undef => PRes.panicked "Preprocessor directive Undef not implemented"
  | Directive.Undefineall =>
    PRes.panicked "Preprocessor directive Undefineall not implemented"

/-- How one full iteration of the preprocessor ends. -/
inductive Outcome where
  | ended
  | errored (d : Diag)
  | panicked (msg : String)
  | fuelOut
  deriving DecidableEq, Repr

/-- The main loop of `<Preprocessor as Iterator>::next`, iterated to the
end of the stream: a backtick followed by text invokes directive
handling; any other backtick is fatal; other tokens are emitted unless
the region is inactive. -/
def ppLoop (env : Env) : Nat → PP → List TokenAndSpan × Outcome
  | 0, _ => ([], Outcome.fuelOut)
  | fuel + 1, pp =>
    match pp.token with
    | some (CatTokenKind.Symbol c, spB) =>
      if c = backtickChar then
        let pp1 := bump pp
        match pp1.token with
        | some (CatTokenKind.Text, sp) =>
          match handleDirective env fuel (extractSp env sp) (Span.union spB sp) pp1 with
          | PRes.ok pp2 => ppLoop env fuel (bump pp2)
          | PRes.err d => ([], Outcome.errored d)
          | PRes.panicked m => ([], Outcome.panicked m)
          | PRes.fuelOut => ([], Outcome.fuelOut)
        | some (CatTokenKind.Symbol c2, sp) =>
          if c2 = backtickChar then
            ([], Outcome.errored (fatal
              "Preprocessor concatenation '``' used outside of `define"
              (Span.union spB sp)))
          else
            ([], Outcome.errored (fatal "Expected compiler directive after '`'" spB))
        | _ =>
          ([], Outcome.errored (fatal "Expected compiler directive after '`'" spB))
      else
        if isInactive pp then ppLoop env fuel (bump pp)
        else
          let r := ppLoop env fuel (bump pp)
          ((CatTokenKind.Symbol c, spB) :: r.1, r.2)
    | some t =>
      if isInactive pp then ppLoop env fuel (bump pp)
      else
        let r := ppLoop env fuel (bump pp)
        (t :: r.1, r.2)
    | none =>
      if isInactive pp then ppLoop env fuel (bump pp)
      else ([], Outcome.ended)

/-- The initial preprocessor state for a root source (`Preprocessor::new`). -/
def initPP (src : Nat) (toks : List TokenAndSpan) : PP :=
  ⟨[(src, toks)], [], [], [], none⟩

/-- Iterate the preprocessor to completion: the emitted tokens in order
and how the iteration ended. -/
def runPP (env : Env) (fuel : Nat) (pp : PP) : List TokenAndSpan × Outcome :=
  ppLoop env fuel (if pp.token.isNone then bump pp else pp)

/-- Characters forming `Text` runs in the category lexer model. -/
def isIdentChar (c : Char) : Bool :=
  c.isAlphanum || c == '_' || c == '$'

/-- Blank (non-newline whitespace) characters in the category lexer model. -/
def isBlank (c : Char) : Bool :=
  c == ' ' || c == '\t' || c == '\r'

/-- Length of a block comment tail up to and including the closing star
and slash, for the category lexer model. -/
def blockCommentLen : List Char → Nat
  | [] => 0
  | '*' :: '/' :: _ => 2
  | _ :: rest => 1 + blockCommentLen rest

/-- Modelled from the spec: the external category lexer (`Cat`), whose
source is not part of the files under verification.  Per §6.1 it streams
`(CatTokenKind, begin, end)` triples with kinds `Text`, `Whitespace`,
`Newline`, `Symbol(char)` and `Comment`.  We model `Text` as a maximal run
of letters, digits, underscores and dollar signs, `Whitespace` as a
maximal run of blanks, `Newline` as a single line feed, `Comment` as a
line comment or a block comment, and any other character as a one-char
`Symbol`.  The fuel is the character count, which suffices because every
step consumes at least one character. -/
def catLexGo : Nat → List Char → Nat → List (CatTokenKind × Nat × Nat)
  | 0, _, _ => []
  | _ + 1, [], _ => []
  | fuel + 1, c :: rest, pos =>
    if c == '\n' then
      (CatTokenKind.Newline, pos, pos + 1) :: catLexGo fuel rest (pos + 1)
    else if c == '/' && rest.head? == some '/' then
      let n := 2 + (rest.tail.takeWhile (fun x => !(x == '\n'))).length
      (CatTokenKind.Comment, pos, pos + n) :: catLexGo fuel ((c :: rest).drop n) (pos + n)
    else if c == '/' && rest.head? == some '*' then
      let n := 2 + blockCommentLen rest.tail
      (CatTokenKind.Comment, pos, pos + n) :: catLexGo fuel ((c :: rest).drop n) (pos + n)
    else if isBlank c then
      let n := 1 + (rest.takeWhile isBlank).length
      (CatTokenKind.Whitespace, pos, pos + n) :: catLexGo fuel ((c :: rest).drop n) (pos + n)
    else if isIdentChar c then
      let n := 1 + (rest.takeWhile isIdentChar).length
      (CatTokenKind.Text, pos, pos + n) :: catLexGo fuel ((c :: rest).drop n) (pos + n)
    else
      (CatTokenKind.Symbol c, pos, pos + 1) :: catLexGo fuel rest (pos + 1)

/-- Tokens of a source text, with spans tagged by the given source id. -/
def tokensOf (src : Nat) (text : String) : List TokenAndSpan :=
  (catLexGo text.toList.length text.toList 0).map
    (fun t => (t.1, Span.mk src t.2.1 t.2.2))

/-- An environment holding a single root source (id 0) and no include
files, mirroring the preprocessor unit tests. -/
def envOfString (text : String) : Env :=
  ⟨fun s => if s = 0 then text else "",
   fun _ => "test.sv",
   fun _ => none,
   fun _ => [],
   []⟩

/-- Run the preprocessor on a single-source input text. -/
def runStringPP (text : String) (fuel : Nat) : List TokenAndSpan × Outcome :=
  runPP (envOfString text) fuel (initPP 0 (tokensOf 0 text))

/-- Concatenation of the extracted text of a token list (what the unit
tests of preproc.rs compare against). -/
def outText (env : Env) (out : List TokenAndSpan) : String :=
  (out.map (fun t => extractSp env t.2)).foldl (fun a b => a ++ b) ""

/-- Run the preprocessor on a single-source input text and render the
emitted tokens as text. -/
def runStringText (text : String) (fuel : Nat) : String × Outcome :=
  let r := runStringPP text fuel
  (outText (envOfString text) r.1, r.2)

/-- Root source of the include-resolution scenario: includes `a.sv`,
found through the configured include path `lib`. -/
def c7Text0 : String := "`include \"a.sv\"\nX\n"

/-- `lib/a.sv`: includes `b.sv`, which must resolve relative to `lib`
(the directory of the source containing the directive), not relative to
the root source. -/
def c7Text1 : String := "`include \"b.sv\"\nY\n"

/-- `lib/b.sv`. -/
def c7Text2 : String := "Z\n"

/-- A decoy `b.sv` next to the root source; resolution relative to the
root would pick this one up. -/
def c7Text9 : String := "BAD\n"

/-- Contents of the include-resolution scenario sources. -/
def c7Contents (s : Nat) : String :=
  if s = 0 then c7Text0
  else if s = 1 then c7Text1
  else if s = 2 then c7Text2
  else if s = 9 then c7Text9
  else ""

/-- Environment of the include-resolution scenario: a root `top.sv`,
an include path `lib` holding `a.sv` and `b.sv`, and a decoy `b.sv` in
the root directory. -/
def c7Env : Env :=
  ⟨c7Contents,
   fun s =>
     if s = 0 then "top.sv"
     else if s = 1 then "lib/a.sv"
     else if s = 2 then "lib/b.sv"
     else if s = 9 then "b.sv"
     else "",
   fun p =>
     if p = "lib/a.sv" then some 1
     else if p = "lib/b.sv" then some 2
     else if p = "b.sv" then some 9
     else none,
   fun s => tokensOf s (c7Contents s),
   ["lib"]⟩

/-- Run of the include-resolution scenario from the root source. -/
def c7Run : List TokenAndSpan × Outcome :=
  runPP c7Env 100 (initPP 0 (tokensOf 0 c7Text0))

/-
Instance elaboration (`src/svlog/inst_details.rs`).  Node ids, parameter
environments, interned parameter data and port mappings are abstracted as
naturals; the queries the elaborator consumes (`hir_of`, `find_module`,
`param_env`, `param_env_data`, `port_mapping`) are fields of a context
record, with `none`/`Option` standing for the `Err(())` of a failed
dependency, whose diagnostics were emitted when it was first computed.
-/

/-- The HIR instantiation target (`hir::InstTarget`): the referenced
module name with its span, and the parameter bindings. -/
structure InstTargetH where
  name : String
  nameSpan : Span
  posParams : List Nat
  namedParams : List Nat
  deriving DecidableEq, Repr

/-- The HIR module (`hir::Module`), reduced to its node id. -/
structure ModuleH where
  id : Nat
  deriving DecidableEq, Repr

/-- The HIR instantiation (`hir::Inst`): the target node and the port
bindings. -/
structure InstH where
  id : Nat
  target : Nat
  posPorts : List Nat
  namedPorts : List Nat
  deriving DecidableEq, Repr

/-- The tagged HIR reference (`hir::HirNode`), restricted to the variants
instance elaboration dispatches on. -/
inductive HirNode where
  | ModuleNode (m : ModuleH)
  | InstNode (i : InstH)
  | InstTargetNode (t : InstTargetH)
  | OtherNode
  deriving DecidableEq, Repr

/-- Outcome of a query: success, the `Err(())` "already diagnosed"
sentinel, or an internal-invariant violation (`bug_span!`). -/
inductive QRes (α : Type) where
  | ok (a : α)
  | failed
  | bugFound (msg : String)
  deriving DecidableEq, Repr

/-- The query context consumed by instance elaboration.  `hirOf` returning
`none` models a failed `hir_of` query propagated by `?`; likewise for
`paramEnv` and `portMapping`. -/
structure Ctx where
  hirOf : Nat → Option HirNode
  findModule : String → Option Nat
  paramEnv : Nat → Nat → Nat → List Nat → List Nat → Option Nat
  paramEnvData : Nat → Nat
  portMapping : Nat → Nat → Nat → List Nat → List Nat → Option Nat

/-- `InstTargetDetails`. -/
structure InstTargetDetails where
  instTarget : InstTargetH
  moduleH : ModuleH
  outerEnv : Nat
  innerEnv : Nat
  params : Nat
  deriving DecidableEq, Repr

/-- `InstDetails`. -/
structure InstDetails where
  inst : InstH
  target : InstTargetDetails
  ports : Nat
  deriving DecidableEq, Repr

/-- The diagnostic emitted for an unresolvable instantiation target name. -/
def unknownModuleDiag (name : String) (sp : Span) : Diag :=
  ⟨"error", "unknown module or interface `" ++ name ++ "`", some sp⟩

/-- `compute_inst_target`: look up the `InstTarget` HIR, resolve the
module name (unknown name: emit the diagnostic at the name span and
fail), look up the module HIR, and build the inner parameter
environment.  The first component collects the diagnostics this
computation emits. -/
def computeInstTarget (cx : Ctx) (nodeId env : Nat) :
    List Diag × QRes InstTargetDetails :=
  match cx.hirOf nodeId with
  | none => ([], QRes.failed)
  | some (HirNode.InstTargetNode it) =>
    match cx.findModule it.name with
    | none => ([unknownModuleDiag it.name it.nameSpan], QRes.failed)
    | some moduleId =>
      match cx.hirOf moduleId with
      | none => ([], QRes.failed)
      | some (HirNode.ModuleNode m) =>
        match cx.paramEnv moduleId nodeId env it.posParams it.namedParams with
        | none => ([], QRes.failed)
        | some instEnv =>
          ([], QRes.ok ⟨it, m, env, instEnv, cx.paramEnvData instEnv⟩)
      | some _ => ([], QRes.bugFound "instantiated module is not a module")
  | some _ => ([], QRes.bugFound "inst target is not an InstTarget")

/-- `compute_inst`: look up the `Inst` HIR, recurse into the target
details (propagating failure without emitting anything further), and
build the port mapping under the inner environment. -/
def computeInst (cx : Ctx) (nodeId env : Nat) : List Diag × QRes InstDetails :=
  match cx.hirOf nodeId with
  | none => ([], QRes.failed)
  | some (HirNode.InstNode inst) =>
    match computeInstTarget cx inst.target env with
    | (ds, QRes.failed) => (ds, QRes.failed)
    | (ds, QRes.bugFound m) => (ds, QRes.bugFound m)
    | (ds, QRes.ok target) =>
      match cx.portMapping target.moduleH.id nodeId target.innerEnv
          inst.posPorts inst.namedPorts with
      | none => (ds, QRes.failed)
      | some pm => (ds, QRes.ok ⟨inst, target, pm⟩)
  | some _ => ([], QRes.bugFound "inst_details called on a non-inst")

/-- Whether a token is the backtick symbol that opens a directive. -/
def isBacktickSym : TokenAndSpan → Bool
  | (CatTokenKind.Symbol c, _) => c == backtickChar
  | _ => false

/-- Whether a token is an opening or closing parenthesis symbol. -/
def isParenTok : TokenAndSpan → Bool
  | (CatTokenKind.Symbol c, _) => c == '(' || c == ')'
  | _ => false

/-- Whether a token is a backslash symbol. -/
def isBackslashTok : TokenAndSpan → Bool
  | (CatTokenKind.Symbol c, _) => c == '\\'
  | _ => false

/-- Input on which a nested conditional re-enables a lexically disabled
region: `FOO` is defined, the outer `ifdef NOPE` pushes `Disabled`, and
the inner `ifdef FOO` then pushes `Enabled` on top of it. -/
def c1Input : String :=
  "`define FOO x\n`ifdef NOPE\n`ifdef FOO\nhi\n`endif\n`endif\n"

/-- C1: the claim that tokens lexically inside a `Disabled` region never
appear in the output fails on the code: on `c1Input` the token `hi`,
which lies between the disabled `ifdef NOPE` and its `endif`, is emitted
(the run ends normally and the emitted text is `"\nhi\n\n"`), because the
inner `ifdef` of the defined macro `FOO` pushes `Enabled` and
`is_inactive` inspects only the top of the conditional stack. -/
theorem c1_disabled_region_leak :
    runStringText c1Input 200 = ("\nhi\n\n", Outcome.ended) := by
  rfl

/-- C5: on the macro-with-arguments scenario the preprocessor emits
exactly the text `"{12 +  foo _bar}\n"`, the whitespace tokens inside the
macro body and the captured second argument preserved verbatim. -/
theorem c5_macro_args_scenario :
    runStringText "`define foo(x,y) {x + y _bar}\n`foo(12, foo)\n" 200 =
      ("{12 +  foo _bar}\n", Outcome.ended) := by
  rfl

/-- C8: `undef` and `undefineall` are both present in the directive table
(they are recognised, i.e. not `Unknown`), yet handling either directive
in an active region panics instead of producing a diagnostic or removing
a macro: the run on an input containing them aborts with the
not-implemented panic and emits nothing. -/
theorem c8_undef_panics :
    directivesTable "undef" = Directive.Undef ∧
    directivesTable "undefineall" = Directive.Undefineall ∧
    runStringPP "`undef FOO\n" 50 =
      ([], Outcome.panicked "Preprocessor directive Undef not implemented") ∧
    runStringPP "`undefineall FOO\n" 50 =
      ([], Outcome.panicked "Preprocessor directive Undefineall not implemented") := by
  exact ⟨rfl, rfl, rfl, rfl⟩

/-- C3 counterexample: supplying fewer actual arguments than declared
formals is not fatal.  `foo` declares two formals but is invoked with a
single argument, and the run succeeds (no diagnostic at all), emitting
the body with the bound formal substituted. -/
theorem c3_fewer_args_not_fatal :
    runStringText "`define foo(x,y) x\n`foo(1)\n" 200 = ("1\n", Outcome.ended) := by
  rfl

/-- C3 (amended): running out of formals — i.e. more actual arguments
than declared — is the fatal span-less "Superfluous macro parameters"
diagnostic, both at the collection loop itself and end to end; fewer
actual arguments than declared formals is not an error: collection stops
at the closing parenthesis and the unbound formals are left
unsubstituted in the expanded body. -/
theorem c3_macro_arity (dirSpan : Span) (fuel : Nat) (pp : PP)
    (params : List (String × List TokenAndSpan)) :
    macroParamsOuter dirSpan (fuel + 1) [] pp params =
      PRes.err (Diag.mk "fatal" "Superfluous macro parameters" none) ∧
    runStringPP "`define foo(x) x\n`foo(1,2)\n" 200 =
      ([], Outcome.errored (Diag.mk "fatal" "Superfluous macro parameters" none)) ∧
    runStringText "`define foo(x,y) y x\n`foo(7)\n" 200 = ("y 7\n", Outcome.ended) := by
  exact ⟨rfl, rfl, rfl⟩

/-- A preprocessor state positioned on a conditional directive: the
directive name token is current and the conditional's macro-name token is
next (on the injection stack), over an arbitrary macro table and
conditional stack. -/
def condPP (defs : List (String × Macro)) (ds : List Defcond)
    (spDir spN : Span) : PP :=
  ⟨[], defs, [(CatTokenKind.Text, spN)], ds, some (CatTokenKind.Text, spDir)⟩

/-- C6: `elsif` replaces the top of the conditional stack — `Enabled` and
`Done` become `Done`, and `Disabled` becomes `Enabled` or `Disabled`
according to whether the named macro is defined; `else` maps `Disabled`
to `Enabled` and `Enabled`/`Done` to `Done`; `endif` pops the stack; and
each of the three is a fatal diagnostic on an empty conditional stack. -/
theorem c6_conditional_stack_ops (env : Env) (fuel : Nat)
    (defs : List (String × Macro)) (rest : List Defcond) (d : Defcond)
    (sp spDir spN : Span) :
    (handleDirective env fuel "elsif" sp (condPP defs (Defcond.Enabled :: rest) spDir spN) =
      PRes.ok ⟨[], defs, [], Defcond.Done :: rest, some (CatTokenKind.Text, spN)⟩) ∧
    (handleDirective env fuel "elsif" sp (condPP defs (Defcond.Done :: rest) spDir spN) =
      PRes.ok ⟨[], defs, [], Defcond.Done :: rest, some (CatTokenKind.Text, spN)⟩) ∧
    (handleDirective env fuel "elsif" sp (condPP defs (Defcond.Disabled :: rest) spDir spN) =
      PRes.ok ⟨[], defs, [],
        (if amContains defs (extractSp env spN) then Defcond.Enabled
         else Defcond.Disabled) :: rest,
        some (CatTokenKind.Text, spN)⟩) ∧
    (handleDirective env fuel "else" sp (condPP defs (Defcond.Disabled :: rest) spDir spN) =
      PRes.ok (condPP defs (Defcond.Enabled :: rest) spDir spN)) ∧
    (handleDirective env fuel "else" sp (condPP defs (Defcond.Enabled :: rest) spDir spN) =
      PRes.ok (condPP defs (Defcond.Done :: rest) spDir spN)) ∧
    (handleDirective env fuel "else" sp (condPP defs (Defcond.Done :: rest) spDir spN) =
      PRes.ok (condPP defs (Defcond.Done :: rest) spDir spN)) ∧
    (handleDirective env fuel "endif" sp (condPP defs (d :: rest) spDir spN) =
      PRes.ok (condPP defs rest spDir spN)) ∧
    (handleDirective env fuel "elsif" sp (condPP defs [] spDir spN) =
      PRes.err (fatal
        "Found `elsif without any preceeding `ifdef, `ifndef, or `elsif directive" sp)) ∧
    (handleDirective env fuel "else" sp (condPP defs [] spDir spN) =
      PRes.err (fatal
        "Found `else without any preceeding `ifdef, `ifndef, or `elsif directive" sp)) ∧
    (handleDirective env fuel "endif" sp (condPP defs [] spDir spN) =
      PRes.err (fatal
        "Found `endif without any preceeding `ifdef, `ifndef, `else, or `elsif directive"
        sp)) := by
  refine ⟨rfl, rfl, rfl, rfl, rfl, rfl, ?_, rfl, rfl, rfl⟩
  cases d <;> rfl

/-- One iteration of the main loop on a current token that is not a
backtick symbol, in an active region: the token is emitted and the loop
continues on the bumped state. -/
theorem ppLoop_step_emit (env : Env) (fuel : Nat) (pp : PP) (t : TokenAndSpan)
    (htok : pp.token = some t) (hnb : isBacktickSym t = false)
    (hact : isInactive pp = false) :
    ppLoop env (fuel + 1) pp =
      (t :: (ppLoop env fuel (bump pp)).1, (ppLoop env fuel (bump pp)).2) := by
  obtain ⟨k, sp⟩ := t
  cases k
  case Symbol c =>
    have hnb' : ¬(c = backtickChar) := by simpa [isBacktickSym] using hnb
    simp [ppLoop, htok, hact, hnb']
  all_goals simp [ppLoop, htok, hact]

/-- The main loop over a single stream containing no backtick symbol
emits every remaining token in order and ends normally. -/
theorem ppLoop_passthrough (env : Env) (src : Nat) (defs : List (String × Macro)) :
    ∀ ts t, ((t :: ts).all (fun x => !(isBacktickSym x)) = true) →
    ppLoop env (ts.length + 2) ⟨[(src, ts)], defs, [], [], some t⟩ =
      (t :: ts, Outcome.ended) := by
  intro ts
  induction ts with
  | nil =>
    intro t h
    simp only [List.all_cons, List.all_nil, Bool.and_eq_true, Bool.not_eq_true'] at h
    show ppLoop env (1 + 1) ⟨[(src, [])], defs, [], [], some t⟩ = ([t], Outcome.ended)
    rw [ppLoop_step_emit env 1 ⟨[(src, [])], defs, [], [], some t⟩ t rfl h.1 rfl]
    rfl
  | cons t' ts' ih =>
    intro t h
    rw [List.all_cons, Bool.and_eq_true, Bool.not_eq_true'] at h
    show ppLoop env ((ts'.length + 2) + 1)
      ⟨[(src, t' :: ts')], defs, [], [], some t⟩ = _
    rw [ppLoop_step_emit env (ts'.length + 2)
      ⟨[(src, t' :: ts')], defs, [], [], some t⟩ t rfl h.1 rfl]
    have hb : bump ⟨[(src, t' :: ts')], defs, [], [], some t⟩ =
        ⟨[(src, ts')], defs, [], [], some t'⟩ := rfl
    rw [hb, ih t' h.2]

/-- C2: on an input whose category-token stream contains no backtick
symbol token, the preprocessor emits exactly the lexer's token stream —
the same kinds and the same spans in the same order — and ends without
error. -/
theorem c2_token_conservation (env : Env) (src : Nat) (ts : List TokenAndSpan)
    (h : ts.all (fun x => !(isBacktickSym x)) = true) :
    runPP env (ts.length + 1) (initPP src ts) = (ts, Outcome.ended) := by
  cases ts with
  | nil => rfl
  | cons t ts' =>
    exact ppLoop_passthrough env src [] ts' t h

/-- A concrete backtick-free token stream for the C2 witness. -/
def c2List : List TokenAndSpan :=
  [(CatTokenKind.Text, ⟨0, 0, 2⟩), (CatTokenKind.Newline, ⟨0, 2, 3⟩)]

/-- Witness for C2 at a concrete backtick-free token stream. -/
theorem c2_token_conservation_witness :
    (c2List.all (fun x => !(isBacktickSym x)) = true) ∧
    runPP (envOfString "ab\n") (c2List.length + 1) (initPP 0 c2List) =
      (c2List, Outcome.ended) :=
  ⟨by decide, c2_token_conservation (envOfString "ab\n") 0 c2List (by decide)⟩

/-- The search loop of `open_include` returns the first prefix (in list
order) under which the source manager opens the filename. -/
theorem openIncludeGo_eq_findSome (env : Env) (filename : String) :
    ∀ ps : List String, openIncludeGo env filename ps =
      ps.findSome? (fun p => env.fsOpen (joinPath p filename)) := by
  intro ps
  induction ps with
  | nil => rfl
  | cons p rest ih =>
    show (match env.fsOpen (joinPath p filename) with
      | some src => some src
      | none => openIncludeGo env filename rest) = _
    rw [List.findSome?_cons]
    cases env.fsOpen (joinPath p filename) <;> simp [ih]

/-- C7: include resolution searches the directory of the textual source
containing the directive first and then each configured include path in
their given order, taking the first candidate that opens; in the
two-level scenario the inner `include "b.sv"` placed in `lib/a.sv`
resolves to `lib/b.sv` rather than to the decoy `b.sv` that would be
found relative to the root, the whole run succeeding with the included
contents spliced in; and when no candidate opens, the directive is a
fatal diagnostic. -/
theorem c7_include_resolution :
    (∀ (env : Env) (filename current : String),
      openInclude env filename current =
        (parentDir current :: env.includePaths).findSome?
          (fun p => env.fsOpen (joinPath p filename))) ∧
    openInclude c7Env "b.sv" (c7Env.srcPath 1) = some 2 ∧
    c7Env.fsOpen "b.sv" = some 9 ∧
    c7Run.2 = Outcome.ended ∧
    outText c7Env c7Run.1 = "Z\n\nY\n\nX\n" ∧
    runStringPP "`include \"nope.sv\"\n" 100 =
      ([], Outcome.errored
        (fatal "Cannot open included file \"nope.sv\"" ⟨0, 10, 17⟩)) := by
  refine ⟨?_, rfl, rfl, rfl, rfl, rfl⟩
  intro env filename current
  exact openIncludeGo_eq_findSome env filename (parentDir current :: env.includePaths)

/-- Appending a token that does not satisfy `p` preserves an
all-not-`p` accumulator. -/
theorem all_snoc_aux (p : TokenAndSpan → Bool) (acc : List TokenAndSpan)
    (t : TokenAndSpan) (h : acc.all (fun x => !(p x)) = true) (ht : p t = false) :
    (acc ++ [t]).all (fun x => !(p x)) = true := by
  rw [List.all_append, h, Bool.true_and, List.all_cons, List.all_nil]
  simp [ht]

/-- The per-argument collection loop never adds a parenthesis symbol to
the captured token sequence: starting from a paren-free accumulator, a
successful collection is paren-free. -/
theorem macroParamInner_no_parens (dirSpan : Span) :
    ∀ (fuel : Nat) (pp : PP) (nesting : Nat) (acc : List TokenAndSpan)
      (toks : List TokenAndSpan) (isClose : Bool) (pp' : PP),
      acc.all (fun x => !(isParenTok x)) = true →
      macroParamInner dirSpan fuel pp nesting acc = PRes.ok ((toks, isClose), pp') →
      toks.all (fun x => !(isParenTok x)) = true := by
  intro fuel
  induction fuel with
  | zero =>
    intro pp nesting acc toks isClose pp' hacc h
    exact absurd h (by simp [macroParamInner])
  | succ n ih =>
    intro pp nesting acc toks isClose pp' hacc h
    rw [macroParamInner] at h
    cases htok : pp.token with
    | none => rw [htok] at h; exact absurd h (by simp)
    | some t =>
      obtain ⟨k, sp⟩ := t
      rw [htok] at h
      cases k with
      | Symbol c =>
        have h' : (if c = ',' ∧ nesting = 0 then PRes.ok ((acc, false), bump pp)
            else if c = ')' ∧ nesting = 0 then PRes.ok ((acc, true), pp)
            else if c = '(' then macroParamInner dirSpan n (bump pp) (nesting + 1) acc
            else if c = ')' then macroParamInner dirSpan n (bump pp) (nesting - 1) acc
            else macroParamInner dirSpan n (bump pp) nesting
              (acc ++ [(CatTokenKind.Symbol c, sp)])) =
            PRes.ok ((toks, isClose), pp') := h
        split at h'
        next =>
          simp only [PRes.ok.injEq, Prod.mk.injEq] at h'
          exact h'.1.1 ▸ hacc
        next =>
          split at h'
          next =>
            simp only [PRes.ok.injEq, Prod.mk.injEq] at h'
            exact h'.1.1 ▸ hacc
          next =>
            split at h'
            next => exact ih (bump pp) (nesting + 1) acc toks isClose pp' hacc h'
            next h3 =>
              split at h'
              next => exact ih (bump pp) (nesting - 1) acc toks isClose pp' hacc h'
              next h4 =>
                refine ih (bump pp) nesting (acc ++ [(CatTokenKind.Symbol c, sp)])
                  toks isClose pp' ?_ h'
                refine all_snoc_aux isParenTok acc _ hacc ?_
                simp [isParenTok, h3, h4]
      | Text =>
        exact ih (bump pp) nesting (acc ++ [(CatTokenKind.Text, sp)]) toks isClose pp'
          (all_snoc_aux isParenTok acc _ hacc rfl) h
      | Comment =>
        exact ih (bump pp) nesting (acc ++ [(CatTokenKind.Comment, sp)]) toks isClose pp'
          (all_snoc_aux isParenTok acc _ hacc rfl) h
      | Whitespace =>
        exact ih (bump pp) nesting (acc ++ [(CatTokenKind.Whitespace, sp)]) toks isClose pp'
          (all_snoc_aux isParenTok acc _ hacc rfl) h
      | Newline =>
        exact ih (bump pp) nesting (acc ++ [(CatTokenKind.Newline, sp)]) toks isClose pp'
          (all_snoc_aux isParenTok acc _ hacc rfl) h

/-- C9: parenthesis symbols inside a macro argument maintain the nesting
counter but are never appended to the captured sequence — any
successfully captured argument contains no parenthesis token — and hence
an argument written `f(1)` expands with its parentheses missing. -/
theorem c9_paren_args (dirSpan : Span) (fuel : Nat) (pp pp' : PP)
    (nesting : Nat) (toks : List TokenAndSpan) (isClose : Bool)
    (h : macroParamInner dirSpan fuel pp nesting [] = PRes.ok ((toks, isClose), pp')) :
    toks.all (fun x => !(isParenTok x)) = true ∧
    runStringText "`define id(x) x\n`id(f(1))\n" 200 = ("f1\n", Outcome.ended) :=
  ⟨macroParamInner_no_parens dirSpan fuel pp nesting [] toks isClose pp' rfl h, rfl⟩

/-- A span for concrete witness states. -/
def spW : Span := ⟨0, 0, 0⟩

/-- A state whose current token is a closing parenthesis at nesting
level 0, on which argument collection succeeds immediately. -/
def ppW : PP := ⟨[], [], [], [], some (CatTokenKind.Symbol ')', spW)⟩

/-- Witness for C9: a concrete successful collection. -/
theorem c9_paren_args_witness :
    macroParamInner spW 1 ppW 0 [] = PRes.ok (([], true), ppW) ∧
    (([] : List TokenAndSpan).all (fun x => !(isParenTok x)) = true ∧
     runStringText "`define id(x) x\n`id(f(1))\n" 200 = ("f1\n", Outcome.ended)) :=
  ⟨rfl, c9_paren_args spW 1 ppW ppW 0 [] true rfl⟩

/-- A successful body collection starting from a backslash-free
accumulator stores no backslash token. -/
theorem defineBodyLoop_no_backslash :
    ∀ (fuel : Nat) (pp pp' : PP) (acc body : List TokenAndSpan),
      acc.all (fun x => !(isBackslashTok x)) = true →
      defineBodyLoop fuel pp acc = PRes.ok (body, pp') →
      body.all (fun x => !(isBackslashTok x)) = true := by
  intro fuel
  induction fuel with
  | zero =>
    intro pp pp' acc body hacc h
    exact absurd h (by simp [defineBodyLoop])
  | succ n ih =>
    intro pp pp' acc body hacc h
    rw [defineBodyLoop] at h
    cases htok : pp.token with
    | none =>
      rw [htok] at h
      obtain ⟨h1, h2⟩ := by simpa using h
      exact h1 ▸ hacc
    | some t =>
      obtain ⟨k, sp⟩ := t
      rw [htok] at h
      cases k with
      | Newline =>
        obtain ⟨h1, h2⟩ := by simpa using h
        exact h1 ▸ hacc
      | Symbol c =>
        have h' : (if c = '\\' then
            (match (bump pp).token with
             | some (CatTokenKind.Newline, _) => defineBodyLoop n (bump (bump pp)) acc
             | _ => defineBodyLoop n (bump pp) acc)
            else defineBodyLoop n (bump pp) (acc ++ [(CatTokenKind.Symbol c, sp)])) =
            PRes.ok (body, pp') := h
        split at h'
        next =>
          cases htok2 : (bump pp).token with
          | none =>
            rw [htok2] at h'
            exact ih (bump pp) pp' acc body hacc h'
          | some t2 =>
            obtain ⟨k2, sp2⟩ := t2
            rw [htok2] at h'
            cases k2 with
            | Newline => exact ih (bump (bump pp)) pp' acc body hacc h'
            | Text => exact ih (bump pp) pp' acc body hacc h'
            | Comment => exact ih (bump pp) pp' acc body hacc h'
            | Whitespace => exact ih (bump pp) pp' acc body hacc h'
            | Symbol c2 => exact ih (bump pp) pp' acc body hacc h'
        next hc =>
          refine ih (bump pp) pp' (acc ++ [(CatTokenKind.Symbol c, sp)]) body ?_ h'
          refine all_snoc_aux isBackslashTok acc _ hacc ?_
          simp [isBackslashTok, hc]
      | Text =>
        exact ih (bump pp) pp' (acc ++ [(CatTokenKind.Text, sp)]) body
          (all_snoc_aux isBackslashTok acc _ hacc rfl) h
      | Comment =>
        exact ih (bump pp) pp' (acc ++ [(CatTokenKind.Comment, sp)]) body
          (all_snoc_aux isBackslashTok acc _ hacc rfl) h
      | Whitespace =>
        exact ih (bump pp) pp' (acc ++ [(CatTokenKind.Whitespace, sp)]) body
          (all_snoc_aux isBackslashTok acc _ hacc rfl) h

/-- C10: while a `define` body is consumed, a backslash symbol followed by
a newline is discarded together with the newline (line continuation), a
backslash followed by anything else is discarded alone, and consequently
no stored macro body contains a backslash token. -/
theorem c10_backslash_dropped :
    (∀ (fuel : Nat) (stk : List (Nat × List TokenAndSpan))
       (defs : List (String × Macro)) (ds : List Defcond)
       (ms acc : List TokenAndSpan) (sp1 sp2 : Span),
      defineBodyLoop (fuel + 1)
          ⟨stk, defs, (CatTokenKind.Newline, sp2) :: ms, ds,
            some (CatTokenKind.Symbol '\\', sp1)⟩ acc =
        defineBodyLoop fuel
          (bump ⟨stk, defs, ms, ds, some (CatTokenKind.Newline, sp2)⟩) acc) ∧
    (∀ (fuel : Nat) (stk : List (Nat × List TokenAndSpan))
       (defs : List (String × Macro)) (ds : List Defcond)
       (ms acc : List TokenAndSpan) (sp1 : Span) (t : TokenAndSpan),
      t.1 ≠ CatTokenKind.Newline →
      defineBodyLoop (fuel + 1)
          ⟨stk, defs, t :: ms, ds, some (CatTokenKind.Symbol '\\', sp1)⟩ acc =
        defineBodyLoop fuel ⟨stk, defs, ms, ds, some t⟩ acc) ∧
    (∀ (fuel : Nat) (pp pp' : PP) (body : List TokenAndSpan),
      defineBodyLoop fuel pp [] = PRes.ok (body, pp') →
      body.all (fun x => !(isBackslashTok x)) = true) := by
  refine ⟨?_, ?_, ?_⟩
  · intro fuel stk defs ds ms acc sp1 sp2
    rfl
  · intro fuel stk defs ds ms acc sp1 t ht
    obtain ⟨k, sp⟩ := t
    cases k with
    | Newline => exact absurd rfl ht
    | Text => rfl
    | Comment => rfl
    | Whitespace => rfl
    | Symbol c => rfl
  · intro fuel pp pp' body h
    exact defineBodyLoop_no_backslash fuel pp pp' [] body rfl h

/-- A state whose current token is a newline, on which body collection
succeeds immediately with an empty body. -/
def ppB : PP := ⟨[], [], [], [], some (CatTokenKind.Newline, spW)⟩

/-- Witness for C10: a concrete successful body collection and a concrete
non-newline token for the second clause. -/
theorem c10_backslash_dropped_witness :
    defineBodyLoop 1 ppB [] = PRes.ok ([], ppB) ∧
    (CatTokenKind.Text, spW).1 ≠ CatTokenKind.Newline ∧
    defineBodyLoop 2
        ⟨[], [], [(CatTokenKind.Text, spW)], [],
          some (CatTokenKind.Symbol '\\', spW)⟩ [] =
      defineBodyLoop 1 ⟨[], [], [], [], some (CatTokenKind.Text, spW)⟩ [] ∧
    ([] : List TokenAndSpan).all (fun x => !(isBackslashTok x)) = true :=
  ⟨rfl, by decide,
   c10_backslash_dropped.2.1 1 [] [] [] [] [] spW (CatTokenKind.Text, spW) (by decide),
   c10_backslash_dropped.2.2 1 ppB ppB [] rfl⟩

/-- C4: when the instantiation target's name is not found by
`find_module`, `inst_target_details` emits exactly one diagnostic —
"unknown module or interface" followed by the backtick-quoted name,
attached to the name's span — and fails; the dependent `inst_details`
computation short-circuits to the same failure and its total diagnostic
output is that same single diagnostic, nothing further. -/
theorem c4_unknown_module_single_diag (cx : Ctx) (instId env : Nat)
    (i : InstH) (it : InstTargetH)
    (hinst : cx.hirOf instId = some (HirNode.InstNode i))
    (htgt : cx.hirOf i.target = some (HirNode.InstTargetNode it))
    (hfind : cx.findModule it.name = none) :
    computeInstTarget cx i.target env =
      ([unknownModuleDiag it.name it.nameSpan], QRes.failed) ∧
    computeInst cx instId env =
      ([unknownModuleDiag it.name it.nameSpan], QRes.failed) := by
  have ht : computeInstTarget cx i.target env =
      ([unknownModuleDiag it.name it.nameSpan], QRes.failed) := by
    simp only [computeInstTarget, htgt, hfind]
  refine ⟨ht, ?_⟩
  simp only [computeInst, hinst, ht]

/-- A concrete context for the C4 witness: node 1 is an instantiation of
target node 2, which names a module `foo` that no module table resolves. -/
def cxW : Ctx :=
  ⟨fun n =>
     if n = 1 then some (HirNode.InstNode ⟨1, 2, [], []⟩)
     else if n = 2 then some (HirNode.InstTargetNode ⟨"foo", ⟨0, 5, 8⟩, [], []⟩)
     else none,
   fun _ => none,
   fun _ _ _ _ _ => none,
   fun _ => 0,
   fun _ _ _ _ _ => none⟩

/-- Witness for C4 at the concrete context `cxW`. -/
theorem c4_unknown_module_single_diag_witness :
    cxW.hirOf 1 = some (HirNode.InstNode ⟨1, 2, [], []⟩) ∧
    cxW.hirOf 2 = some (HirNode.InstTargetNode ⟨"foo", ⟨0, 5, 8⟩, [], []⟩) ∧
    cxW.findModule "foo" = none ∧
    (computeInstTarget cxW 2 0 =
      ([unknownModuleDiag "foo" ⟨0, 5, 8⟩], QRes.failed) ∧
     computeInst cxW 1 0 =
      ([unknownModuleDiag "foo" ⟨0, 5, 8⟩], QRes.failed)) :=
  ⟨rfl, rfl, rfl,
   c4_unknown_module_single_diag cxW 1 0 ⟨1, 2, [], []⟩ ⟨"foo", ⟨0, 5, 8⟩, [], []⟩
     rfl rfl rfl⟩

end Moore










